import Mathlib

/-!
# OTP request form handler (`src/web/static/js/app.js`)

A shallow embedding of the browser script that intercepts the submission of the
OTP request form, posts the form with `fetch`, and renders the outcome into the
status element `#otp-status`.

The script is asynchronous: an invocation of the submit handler runs up to the
first `await`, is suspended, and is resumed when the awaited promise settles.
The embedding is a transition function `step` over a page state; the events are
the user's actions and the settlements of the promises the handler awaits.
Every DOM and network operation the script performs is appended to a log, so
that the order of effects can be stated.
-/

namespace OtpApp

/-! ## JSON values, as returned by `resp.json()` -/

/-- A JSON number as this script can observe it: the script only tests a number
for truthiness and converts it to a string, so a number is represented by
those two observations (`nonzero` is false exactly for `0` and `-0`). -/
structure JNumber where
  nonzero : Bool
  shown : String
deriving DecidableEq, Repr

mutual
/-- A value produced by `JSON.parse`. -/
inductive Json where
  | null
  | bool (b : Bool)
  | num (n : JNumber)
  | str (s : String)
  | arr (xs : Elems)
  | obj (ms : Members)
/-- The elements of a JSON array. -/
inductive Elems where
  | nil
  | cons (x : Json) (xs : Elems)
/-- The members of a JSON object, in the order of the source text. -/
inductive Members where
  | nil
  | cons (k : String) (v : Json) (ms : Members)
end

/-- A JavaScript value read out of the parsed response: a property read gives
either `undefined` or one of the JSON values. -/
inductive Val where
  | undefined
  | json (j : Json)

/-- Own property `k` of a parsed object; when a key is repeated in the source
text, `JSON.parse` keeps the last occurrence. -/
def Members.find (k : String) : Members → Option Json
  | .nil => none
  | .cons k2 v ms =>
    match Members.find k ms with
    | some w => some w
    | none => if k2 = k then some v else none

/-- Property read `data.k` for a name `k` that no built-in prototype defines
(the script reads `success`, `message` and `error`). Reading a property of
`null` throws a `TypeError` (`none`); an object gives its own member or
`undefined`; every other value gives `undefined`. -/
def Json.getProp (k : String) : Json → Option Val
  | .null => none
  | .obj ms =>
    match ms.find k with
    | some v => some (.json v)
    | none => some .undefined
  | _ => some .undefined

/-- JavaScript `ToBoolean`. -/
def Val.truthy : Val → Bool
  | .undefined => false
  | .json .null => false
  | .json (.bool b) => b
  | .json (.num n) => n.nonzero
  | .json (.str s) => s != ""
  | .json (.arr _) => true
  | .json (.obj _) => true

/-- The expression `v || d` with a string literal `d`. -/
def Val.orElse (v : Val) (d : String) : Val :=
  if v.truthy then v else .json (.str d)

/-- An array element inside `Array.prototype.join`: `null` is rendered as the
empty string, any other element by `ToString` (whose result is `r`). -/
def elemText (x : Json) (r : Option String) : Option String :=
  match x with
  | .null => some ""
  | _ => r

/-- Concatenation of two conversions, either of which may have thrown. -/
def seqText (a b : Option String) : Option String :=
  match a with
  | none => none
  | some x =>
    match b with
    | none => none
    | some y => some (x ++ y)

mutual
/-- JavaScript `ToString` on a parsed JSON value; `none` is a thrown
`TypeError`. An array is joined with commas. A parsed object has
`Object.prototype` as prototype: without an own `toString` member it converts
to `[object Object]`; with one (a JSON value, never callable) the conversion
falls through to `valueOf`, which yields no primitive, and throws. -/
def Json.toStr : Json → Option String
  | .null => some "null"
  | .bool true => some "true"
  | .bool false => some "false"
  | .num n => some n.shown
  | .str s => some s
  | .arr xs => Elems.join xs
  | .obj ms => if (Members.find "toString" ms).isSome then none else some "[object Object]"
/-- The text of `Array.prototype.join` with the default separator. -/
def Elems.join : Elems → Option String
  | .nil => some ""
  | .cons x xs => seqText (elemText x (Json.toStr x)) (Elems.joinTail xs)
/-- The text of the elements after the first, each preceded by a comma. -/
def Elems.joinTail : Elems → Option String
  | .nil => some ""
  | .cons x xs => seqText (seqText (some ",") (elemText x (Json.toStr x))) (Elems.joinTail xs)
end

/-- The conversion the `textContent` setter applies to the assigned value:
`null` and `undefined` become the empty string, anything else goes through
`ToString`; `none` is a thrown `TypeError`. -/
def Val.toDOMString : Val → Option String
  | .undefined => some ""
  | .json .null => some ""
  | .json j => j.toStr

/-! ## The page -/

/-- The status element `#otp-status`: its text and its class list. -/
structure Sink where
  textContent : String
  classList : List String
deriving DecidableEq, Repr

/-- The form `form[data-role="otp-request"]`: its action URL and the current
entries of its fields. -/
structure Form where
  action : String
  fields : List (String × String)
deriving DecidableEq, Repr

/-- The document as the script finds it when `DOMContentLoaded` fires. -/
structure Document where
  form : Option Form
  status : Option Sink
deriving DecidableEq, Repr

/-- The argument of a `fetch` call. -/
structure Request where
  method : String
  url : String
  body : List (String × String)
deriving DecidableEq, Repr

/-- The operations the script performs on the DOM and the network. -/
inductive Effect where
  | querySelector (selector : String)
  | getElementById (id : String)
  | addEventListener (type : String)
  | preventDefault
  | classRemove (tokens : List String)
  | classAdd (token : String)
  | setText (text : String)
  | fetch (r : Request)
  | readJson (call : Nat)
deriving DecidableEq, Repr

/-- Where an invocation of the submit handler stands: suspended at
`await fetch(...)`, suspended at `await resp.json()`, or finished. -/
inductive Phase where
  | awaitingFetch
  | awaitingJson
  | done
deriving DecidableEq, Repr

/-- The state of the page. `statusEl` is the element bound on line 4 (`none`
is `null`); `calls` lists the handler invocations that reached the `fetch`, an
invocation being named by its index; `rejected` counts the invocations whose
promise was rejected, that is, from which an error escaped. -/
structure Page where
  form : Option Form
  statusEl : Option Sink
  listening : Bool
  calls : List Phase
  rejected : Nat
  log : List Effect
deriving DecidableEq, Repr

/-- The result of running a block of statements: it completed, or it threw. -/
inductive Outcome where
  | normal (p : Page)
  | thrown (p : Page)
deriving DecidableEq, Repr

/-- Sequencing: the next statements run only if the block completed. -/
def Outcome.andThen (o : Outcome) (k : Page → Outcome) : Outcome :=
  match o with
  | .normal p => k p
  | .thrown p => .thrown p

/-- `DOMTokenList.remove(...tokens)`. -/
def tokensRemove (ts : List String) (l : List String) : List String :=
  l.filter (fun c => !ts.contains c)

/-- `DOMTokenList.add(token)`. -/
def tokensAdd (t : String) (l : List String) : List String :=
  if l.contains t then l else l ++ [t]

/-- The statement `statusEl.classList.remove(...ts)`. -/
def classListRemove (ts : List String) (p : Page) : Outcome :=
  match p.statusEl with
  | none => .thrown p
  | some s =>
    .normal { p with
      statusEl := some { s with classList := tokensRemove ts s.classList }
      log := p.log ++ [.classRemove ts] }

/-- The statement `statusEl.classList.add(t)`. -/
def classListAdd (t : String) (p : Page) : Outcome :=
  match p.statusEl with
  | none => .thrown p
  | some s =>
    .normal { p with
      statusEl := some { s with classList := tokensAdd t s.classList }
      log := p.log ++ [.classAdd t] }

/-- The statement `statusEl.textContent = v`. -/
def setTextContent (v : Val) (p : Page) : Outcome :=
  match p.statusEl with
  | none => .thrown p
  | some s =>
    match v.toDOMString with
    | none => .thrown p
    | some t =>
      .normal { p with
        statusEl := some { s with textContent := t }
        log := p.log ++ [.setText t] }

/-! ## The script -/

def selector : String := "form[data-role=\"otp-request\"]"
def statusId : String := "otp-status"
def red : String := "text-red-600"
def green : String := "text-green-600"
def hidden : String := "hidden"
def msgProgress : String := "正在发送验证码..."
def msgSent : String := "验证码已发送"
def msgFailed : String := "发送失败，请稍后再试"
def msgNetwork : String := "发送失败，请检查网络连接"

/-- Lines 1-5 and 29-30: the `DOMContentLoaded` listener. -/
def domContentLoaded (d : Document) : Page :=
  match d.form with
  | none =>
    { form := none, statusEl := d.status, listening := false, calls := [], rejected := 0,
      log := [.querySelector selector] }
  | some f =>
    { form := some f, statusEl := d.status, listening := true, calls := [], rejected := 0,
      log := [.querySelector selector, .getElementById statusId, .addEventListener "submit"] }

/-- Lines 8-10: the status element is put in the in-progress state. -/
def showProgress (p : Page) : Outcome :=
  (classListRemove [red, green] p).andThen fun (p : Page) =>
  (setTextContent (Val.json (Json.str msgProgress)) p).andThen fun (p : Page) =>
  classListRemove [hidden] p

/-- Lines 6-15: the submit handler up to its first `await`. -/
def handleSubmit (f : Form) (p : Page) : Page :=
  let p : Page := { p with log := p.log ++ [Effect.preventDefault] }
  match p.statusEl with
  | none => p
  | some _ =>
    match showProgress p with
    | .thrown q => { q with rejected := q.rejected + 1 }
    | .normal q =>
      { q with
        log := q.log ++ [Effect.fetch { method := "POST", url := f.action, body := f.fields }]
        calls := q.calls ++ [Phase.awaitingFetch] }

/-- Lines 17-23: the response is rendered. -/
def renderResponse (data : Json) (p : Page) : Outcome :=
  match data.getProp "success" with
  | none => .thrown p
  | some success =>
    if success.truthy then
      match data.getProp "message" with
      | none => .thrown p
      | some message =>
        (setTextContent (message.orElse msgSent) p).andThen fun (p : Page) =>
        classListAdd green p
    else
      match data.getProp "error" with
      | none => .thrown p
      | some error =>
        (setTextContent (error.orElse msgFailed) p).andThen fun (p : Page) =>
        classListAdd red p

/-- Lines 25-26: the `catch` block. -/
def catchBlock (p : Page) : Outcome :=
  (setTextContent (Val.json (Json.str msgNetwork)) p).andThen fun (p : Page) =>
  classListAdd red p

/-- The statement `try { ... } catch (error) { ... }` around a block whose
outcome is `o`. -/
def tryCatch (o : Outcome) : Outcome :=
  match o with
  | .normal p => .normal p
  | .thrown p => catchBlock p

/-- The end of a handler invocation: an error that escaped rejects its promise. -/
def finish (o : Outcome) : Page :=
  match o with
  | .normal p => p
  | .thrown p => { p with rejected := p.rejected + 1 }

/-- What happens on the page: the user edits the form's fields or submits the
form, the `fetch` of an invocation settles (`ok` is false when it rejects), or
its `resp.json()` settles (`none` when it rejects, the body not being JSON). -/
inductive Event where
  | input (fields : List (String × String))
  | submit
  | fetchSettled (call : Nat) (ok : Bool)
  | jsonSettled (call : Nat) (r : Option Json)

/-- One event. A submit event reaches the handler only if the form exists and
the listener was attached; a settlement resumes the invocation that awaits it. -/
def step (p : Page) : Event → Page
  | .input fields =>
    match p.form with
    | none => p
    | some f => { p with form := some { f with fields := fields } }
  | .submit =>
    match p.form with
    | none => p
    | some f => if p.listening then handleSubmit f p else p
  | .fetchSettled call ok =>
    match p.calls[call]? with
    | some .awaitingFetch =>
      if ok then
        { p with calls := p.calls.set call .awaitingJson, log := p.log ++ [.readJson call] }
      else
        finish (tryCatch (.thrown { p with calls := p.calls.set call .done }))
    | _ => p
  | .jsonSettled call r =>
    match p.calls[call]? with
    | some .awaitingJson =>
      match r with
      | none => finish (tryCatch (.thrown { p with calls := p.calls.set call .done }))
      | some data =>
        finish (tryCatch (renderResponse data { p with calls := p.calls.set call .done }))
    | _ => p

/-- A sequence of events. -/
def run (p : Page) (es : List Event) : Page :=
  es.foldl step p

/-! ## Summaries used in the statements and proofs -/

/-- The requests passed to `fetch`, in order. -/
def requests : List Effect → List Request
  | [] => []
  | .fetch r :: es => r :: requests es
  | _ :: es => requests es

/-- The text and the marker that the completion of an invocation leaves on the
status element, as a function of the parsed response. -/
def rendered (data : Json) : String × String :=
  match data.getProp "success" with
  | none => (msgNetwork, red)
  | some success =>
    if success.truthy then
      match data.getProp "message" with
      | none => (msgNetwork, red)
      | some message =>
        match (message.orElse msgSent).toDOMString with
        | none => (msgNetwork, red)
        | some t => (t, green)
    else
      match data.getProp "error" with
      | none => (msgNetwork, red)
      | some error =>
        match (error.orElse msgFailed).toDOMString with
        | none => (msgNetwork, red)
        | some t => (t, red)

/-- How the request of one submission ends: the `fetch` rejects, the body is
not JSON, or the body parses to `data`. -/
inductive Resolution where
  | fetchRejected
  | parseFailed
  | parsed (data : Json)

/-- The settlement events of invocation `call` for a given ending. -/
def settle (call : Nat) : Resolution → List Event
  | .fetchRejected => [.fetchSettled call false]
  | .parseFailed => [.fetchSettled call true, .jsonSettled call none]
  | .parsed data => [.fetchSettled call true, .jsonSettled call (some data)]

/-- One submission on its own: the submit event, then its settlement. -/
def submission (p : Page) (r : Resolution) : Page :=
  run p (.submit :: settle p.calls.length r)

/-- The text and marker an ending renders. -/
def Resolution.shown : Resolution → String × String
  | .fetchRejected => (msgNetwork, red)
  | .parseFailed => (msgNetwork, red)
  | .parsed data => rendered data

/-- The phase in which an invocation waits for the settlement that ends it. -/
def Resolution.awaits : Resolution → Phase
  | .fetchRejected => .awaitingFetch
  | .parseFailed => .awaitingJson
  | .parsed _ => .awaitingJson

/-- The settlement event that ends invocation `call`. -/
def Resolution.completion (call : Nat) : Resolution → Event
  | .fetchRejected => .fetchSettled call false
  | .parseFailed => .jsonSettled call none
  | .parsed data => .jsonSettled call (some data)

/-- The number of handler invocations suspended at an `await`. -/
def pendingCount : List Phase → Nat
  | [] => 0
  | .done :: l => pendingCount l
  | _ :: l => pendingCount l + 1

/-- An event sequence in which the form is submitted only while no earlier
invocation of the handler is still pending. -/
def serialised (p : Page) : List Event → Bool
  | [] => true
  | .submit :: es => pendingCount p.calls == 0 && serialised (step p .submit) es
  | e :: es => serialised (step p e) es

/-- At most one invocation is pending, the status element is present and does
not carry both markers, and it carries neither while an invocation is pending. -/
def Exclusive (p : Page) : Prop :=
  pendingCount p.calls ≤ 1 ∧
    ∃ t, p.statusEl = some t ∧ ¬(red ∈ t.classList ∧ green ∈ t.classList) ∧
      (pendingCount p.calls = 1 → red ∉ t.classList ∧ green ∉ t.classList)

/-! ## Example inputs -/

def exampleForm : Form := { action := "/otp/request", fields := [("phone", "+1234")] }

/-- A status element that starts hidden, with neither marker. -/
def exampleSink : Sink := { textContent := "", classList := ["text-sm", "hidden"] }

/-- The page after load, form and status element present. -/
def examplePage : Page := domContentLoaded { form := some exampleForm, status := some exampleSink }

/-- The page after load, form present, status element absent. -/
def pageNoSink : Page := domContentLoaded { form := some exampleForm, status := none }

/-- The response `{"success": true, "message": "Code sent to +1234"}`. -/
def happyMembers : Members :=
  .cons "success" (.bool true) (.cons "message" (.str "Code sent to +1234") .nil)

/-- The response `{"success": false, "error": "Too many requests"}`. -/
def failureMembers : Members :=
  .cons "success" (.bool false) (.cons "error" (.str "Too many requests") .nil)

/-- The response `{"success": false, "error": "发送失败，请检查网络连接"}`. -/
def echoMembers : Members :=
  .cons "success" (.bool false) (.cons "error" (.str msgNetwork) .nil)

/-- The response `{"success": true, "message": {"toString": null}}`. -/
def stuckMembers : Members :=
  .cons "success" (.bool true) (.cons "message" (.obj (.cons "toString" .null .nil)) .nil)

/-- The submission ending in which that response is parsed. -/
def stuckResponse : Resolution := .parsed (.obj stuckMembers)

/-! ## Lemmas -/

theorem getElem?_at_length (cs : List Phase) (x : Phase) (l : List Phase) :
    (cs ++ x :: l)[cs.length]? = some x := by
  rw [List.getElem?_append_right (Nat.le_refl _)]
  simp

theorem set_at_length (cs : List Phase) (x y : Phase) (l : List Phase) :
    (cs ++ x :: l).set cs.length y = cs ++ y :: l := by
  induction cs with
  | nil => rfl
  | cons c cs ih => simp [ih]

theorem finish_catch (form : Option Form) (t : Sink) (listening : Bool) (calls : List Phase)
    (rejected : Nat) (log : List Effect) :
    finish (tryCatch (.thrown ⟨form, some t, listening, calls, rejected, log⟩)) =
      ⟨form, some ⟨msgNetwork, tokensAdd red t.classList⟩, listening, calls, rejected,
        log ++ [.setText msgNetwork, .classAdd red]⟩ := by
  simp [finish, tryCatch, catchBlock, setTextContent, classListAdd, Outcome.andThen,
    Val.toDOMString, Json.toStr]

theorem finish_render (data : Json) (form : Option Form) (t : Sink) (listening : Bool)
    (calls : List Phase) (rejected : Nat) (log : List Effect) :
    finish (tryCatch (renderResponse data ⟨form, some t, listening, calls, rejected, log⟩)) =
      ⟨form, some ⟨(rendered data).1, tokensAdd (rendered data).2 t.classList⟩, listening, calls,
        rejected, log ++ [.setText (rendered data).1, .classAdd (rendered data).2]⟩ := by
  unfold renderResponse rendered
  cases h1 : data.getProp "success" with
  | none => simp [finish_catch]
  | some success =>
    simp only []
    by_cases h2 : success.truthy = true
    · simp only [h2, if_true]
      cases h3 : data.getProp "message" with
      | none => simp [finish_catch]
      | some message =>
        simp only [setTextContent]
        cases h4 : (message.orElse msgSent).toDOMString with
        | none => simp [Outcome.andThen, finish_catch]
        | some txt => simp [Outcome.andThen, classListAdd, tryCatch, finish]
    · simp only [h2]
      cases h3 : data.getProp "error" with
      | none => simp [finish_catch]
      | some error =>
        simp only [setTextContent]
        cases h4 : (error.orElse msgFailed).toDOMString with
        | none => simp [Outcome.andThen, finish_catch]
        | some txt => simp [Outcome.andThen, classListAdd, tryCatch, finish]

theorem step_submit (f : Form) (t : Sink) (calls : List Phase) (rejected : Nat)
    (log : List Effect) :
    step ⟨some f, some t, true, calls, rejected, log⟩ .submit =
      ⟨some f, some ⟨msgProgress, tokensRemove [hidden] (tokensRemove [red, green] t.classList)⟩,
        true, calls ++ [.awaitingFetch], rejected,
        log ++ [.preventDefault, .classRemove [red, green], .setText msgProgress,
          .classRemove [hidden], .fetch ⟨"POST", f.action, f.fields⟩]⟩ := by
  simp [step, handleSubmit, showProgress, classListRemove, setTextContent, Outcome.andThen,
    Val.toDOMString, Json.toStr]

theorem step_fetchOk (form : Option Form) (sink : Option Sink) (listening : Bool)
    (cs l : List Phase) (rejected : Nat) (log : List Effect) :
    step ⟨form, sink, listening, cs ++ .awaitingFetch :: l, rejected, log⟩
        (.fetchSettled cs.length true) =
      ⟨form, sink, listening, cs ++ .awaitingJson :: l, rejected, log ++ [.readJson cs.length]⟩ := by
  simp only [step, getElem?_at_length, set_at_length]
  simp

theorem step_fetchFail (form : Option Form) (t : Sink) (listening : Bool)
    (cs l : List Phase) (rejected : Nat) (log : List Effect) :
    step ⟨form, some t, listening, cs ++ .awaitingFetch :: l, rejected, log⟩
        (.fetchSettled cs.length false) =
      ⟨form, some ⟨msgNetwork, tokensAdd red t.classList⟩, listening, cs ++ .done :: l, rejected,
        log ++ [.setText msgNetwork, .classAdd red]⟩ := by
  simp only [step, getElem?_at_length, set_at_length]
  simp [finish_catch]

theorem step_jsonFail (form : Option Form) (t : Sink) (listening : Bool)
    (cs l : List Phase) (rejected : Nat) (log : List Effect) :
    step ⟨form, some t, listening, cs ++ .awaitingJson :: l, rejected, log⟩
        (.jsonSettled cs.length none) =
      ⟨form, some ⟨msgNetwork, tokensAdd red t.classList⟩, listening, cs ++ .done :: l, rejected,
        log ++ [.setText msgNetwork, .classAdd red]⟩ := by
  simp only [step, getElem?_at_length, set_at_length]
  simp [finish_catch]

theorem step_jsonOk (data : Json) (form : Option Form) (t : Sink) (listening : Bool)
    (cs l : List Phase) (rejected : Nat) (log : List Effect) :
    step ⟨form, some t, listening, cs ++ .awaitingJson :: l, rejected, log⟩
        (.jsonSettled cs.length (some data)) =
      ⟨form, some ⟨(rendered data).1, tokensAdd (rendered data).2 t.classList⟩, listening,
        cs ++ .done :: l, rejected,
        log ++ [.setText (rendered data).1, .classAdd (rendered data).2]⟩ := by
  simp only [step, getElem?_at_length, set_at_length]
  simp [finish_render]

/-- A whole submission whose response parses to `data`. -/
theorem run_parsed (data : Json) (f : Form) (t : Sink) (calls : List Phase) (rejected : Nat)
    (log : List Effect) :
    run ⟨some f, some t, true, calls, rejected, log⟩
        [.submit, .fetchSettled calls.length true, .jsonSettled calls.length (some data)] =
      ⟨some f, some ⟨(rendered data).1, tokensAdd (rendered data).2
          (tokensRemove [hidden] (tokensRemove [red, green] t.classList))⟩,
        true, calls ++ [.done], rejected,
        log ++ [.preventDefault, .classRemove [red, green], .setText msgProgress,
          .classRemove [hidden], .fetch ⟨"POST", f.action, f.fields⟩, .readJson calls.length,
          .setText (rendered data).1, .classAdd (rendered data).2]⟩ := by
  simp [run, step_submit, step_fetchOk, step_jsonOk]

/-- A whole submission whose `fetch` rejects. -/
theorem run_fetchRejected (f : Form) (t : Sink) (calls : List Phase) (rejected : Nat)
    (log : List Effect) :
    run ⟨some f, some t, true, calls, rejected, log⟩
        [.submit, .fetchSettled calls.length false] =
      ⟨some f, some ⟨msgNetwork, tokensAdd red
          (tokensRemove [hidden] (tokensRemove [red, green] t.classList))⟩,
        true, calls ++ [.done], rejected,
        log ++ [.preventDefault, .classRemove [red, green], .setText msgProgress,
          .classRemove [hidden], .fetch ⟨"POST", f.action, f.fields⟩,
          .setText msgNetwork, .classAdd red]⟩ := by
  simp [run, step_submit, step_fetchFail]

/-- A whole submission whose response body is not JSON. -/
theorem run_parseFailed (f : Form) (t : Sink) (calls : List Phase) (rejected : Nat)
    (log : List Effect) :
    run ⟨some f, some t, true, calls, rejected, log⟩
        [.submit, .fetchSettled calls.length true, .jsonSettled calls.length none] =
      ⟨some f, some ⟨msgNetwork, tokensAdd red
          (tokensRemove [hidden] (tokensRemove [red, green] t.classList))⟩,
        true, calls ++ [.done], rejected,
        log ++ [.preventDefault, .classRemove [red, green], .setText msgProgress,
          .classRemove [hidden], .fetch ⟨"POST", f.action, f.fields⟩, .readJson calls.length,
          .setText msgNetwork, .classAdd red]⟩ := by
  simp [run, step_submit, step_fetchOk, step_jsonFail]

theorem mem_tokensAdd (c t : String) (l : List String) :
    c ∈ tokensAdd t l ↔ c = t ∨ c ∈ l := by
  unfold tokensAdd
  by_cases h : l.contains t = true
  · simp only [h, if_true]
    constructor
    · exact Or.inr
    · rintro (rfl | h2)
      · simpa using h
      · exact h2
  · simp only [h]
    simp [or_comm]

theorem mem_tokensRemove (c : String) (ts l : List String) :
    c ∈ tokensRemove ts l ↔ c ∈ l ∧ c ∉ ts := by
  simp [tokensRemove]

theorem markers_green (l : List String) :
    green ∈ tokensAdd green (tokensRemove [hidden] (tokensRemove [red, green] l)) ∧
      red ∉ tokensAdd green (tokensRemove [hidden] (tokensRemove [red, green] l)) ∧
      hidden ∉ tokensAdd green (tokensRemove [hidden] (tokensRemove [red, green] l)) := by
  simp only [mem_tokensAdd, mem_tokensRemove]
  simp [red, green, hidden]

theorem markers_red (l : List String) :
    red ∈ tokensAdd red (tokensRemove [hidden] (tokensRemove [red, green] l)) ∧
      green ∉ tokensAdd red (tokensRemove [hidden] (tokensRemove [red, green] l)) ∧
      hidden ∉ tokensAdd red (tokensRemove [hidden] (tokensRemove [red, green] l)) := by
  simp only [mem_tokensAdd, mem_tokensRemove]
  simp [red, green, hidden]

theorem requests_append (a b : List Effect) : requests (a ++ b) = requests a ++ requests b := by
  induction a with
  | nil => rfl
  | cons e a ih => cases e <;> simp [requests, ih]

theorem rendered_success_str (ms : Members) (m : String)
    (hsucc : ms.find "success" = some (.bool true)) (hm : ms.find "message" = some (.str m)) :
    rendered (.obj ms) = (if m = "" then msgSent else m, green) := by
  by_cases h : m = "" <;>
    simp [rendered, Json.getProp, hsucc, hm, Val.truthy, Val.orElse, Val.toDOMString,
      Json.toStr, h]

theorem rendered_success_absent (ms : Members)
    (hsucc : ms.find "success" = some (.bool true)) (hm : ms.find "message" = none) :
    rendered (.obj ms) = (msgSent, green) := by
  simp [rendered, Json.getProp, hsucc, hm, Val.truthy, Val.orElse, Val.toDOMString, Json.toStr]

theorem rendered_failure_str (ms : Members) (m : String)
    (hsucc : ms.find "success" = some (.bool false)) (hm : ms.find "error" = some (.str m)) :
    rendered (.obj ms) = (if m = "" then msgFailed else m, red) := by
  by_cases h : m = "" <;>
    simp [rendered, Json.getProp, hsucc, hm, Val.truthy, Val.orElse, Val.toDOMString,
      Json.toStr, h]

theorem rendered_failure_absent (ms : Members)
    (hsucc : ms.find "success" = some (.bool false)) (hm : ms.find "error" = none) :
    rendered (.obj ms) = (msgFailed, red) := by
  simp [rendered, Json.getProp, hsucc, hm, Val.truthy, Val.orElse, Val.toDOMString, Json.toStr]

theorem getProp_of_ne_null (data : Json) (k : String) (h : data ≠ .null) :
    ∃ v, data.getProp k = some v := by
  cases data with
  | null => exact absurd rfl h
  | bool b => exact ⟨_, rfl⟩
  | num n => exact ⟨_, rfl⟩
  | str s => exact ⟨_, rfl⟩
  | arr xs => exact ⟨_, rfl⟩
  | obj ms =>
    simp only [Json.getProp]
    cases ms.find k with
    | none => exact ⟨_, rfl⟩
    | some v => exact ⟨_, rfl⟩

theorem rendered_truthy (data : Json) (succ m : Val) (h1 : data.getProp "success" = some succ)
    (h2 : succ.truthy = true) (h3 : data.getProp "message" = some m) :
    rendered data =
      match (m.orElse msgSent).toDOMString with
      | none => (msgNetwork, red)
      | some t => (t, green) := by
  simp [rendered, h1, h2, h3]

theorem rendered_falsy (data : Json) (succ e : Val) (h1 : data.getProp "success" = some succ)
    (h2 : succ.truthy = false) (h3 : data.getProp "error" = some e) :
    rendered data =
      match (e.orElse msgFailed).toDOMString with
      | none => (msgNetwork, red)
      | some t => (t, red) := by
  simp [rendered, h1, h2, h3]

theorem rendered_failure_marker (ms : Members)
    (hsucc : ms.find "success" = some (.bool false)) : (rendered (.obj ms)).2 = red := by
  obtain ⟨e, he⟩ := getProp_of_ne_null (.obj ms) "error" (fun h => by cases h)
  have hs : (Json.obj ms).getProp "success" = some (.json (.bool false)) := by
    simp [Json.getProp, hsucc]
  rw [rendered_falsy (.obj ms) _ e hs rfl he]
  cases (e.orElse msgFailed).toDOMString <;> rfl

/-- C1, as the script behaves: with the status element present and whatever
its prior text and classes, a submission whose response parses to an object
with `success: true` ends with the text equal to `message` when that is a
non-empty string and to the default "验证码已发送" when `message` is absent.
Whenever the value of `message || "验证码已发送"` converts to a string (always
so when `message` is absent or a string) the text is that string,
`text-green-600` is present and `text-red-600` and `hidden` are absent. When it
does not convert (an object with an own `toString` member), the assignment on
line 18 throws and the `catch` block leaves the text "发送失败，请检查网络连接"
with `text-red-600` present and `text-green-600` and `hidden` absent. -/
theorem success_response_rendered (p : Page) (f : Form) (s : Sink) (ms : Members)
    (hf : p.form = some f) (hl : p.listening = true) (hs : p.statusEl = some s)
    (hsucc : ms.find "success" = some (.bool true)) :
    ∃ t m, (run p [.submit, .fetchSettled p.calls.length true,
        .jsonSettled p.calls.length (some (.obj ms))]).statusEl = some t ∧
      (Json.obj ms).getProp "message" = some m ∧
      (∀ x, ms.find "message" = some (.str x) → x ≠ "" → t.textContent = x) ∧
      (ms.find "message" = none → t.textContent = msgSent) ∧
      ((ms.find "message" = none ∨ ∃ x, ms.find "message" = some (.str x)) →
        green ∈ t.classList ∧ red ∉ t.classList ∧ hidden ∉ t.classList) ∧
      (∀ txt, (m.orElse msgSent).toDOMString = some txt →
        t.textContent = txt ∧ green ∈ t.classList ∧ red ∉ t.classList ∧
          hidden ∉ t.classList) ∧
      ((m.orElse msgSent).toDOMString = none →
        t.textContent = msgNetwork ∧ red ∈ t.classList ∧ green ∉ t.classList ∧
          hidden ∉ t.classList) := by
  obtain ⟨form, sink, listening, calls, rejected, log⟩ := p
  simp only at hf hl hs
  subst hf hl hs
  rw [run_parsed]
  obtain ⟨m, hm⟩ := getProp_of_ne_null (.obj ms) "message" (fun h => by cases h)
  have hsu : (Json.obj ms).getProp "success" = some (.json (.bool true)) := by
    simp [Json.getProp, hsucc]
  refine ⟨_, m, rfl, hm, ?_, ?_, ?_, ?_, ?_⟩
  · intro x hx hne
    rw [rendered_success_str ms x hsucc hx, if_neg hne]
  · intro hx
    rw [rendered_success_absent ms hsucc hx]
  · rintro (hx | ⟨x, hx⟩)
    · rw [rendered_success_absent ms hsucc hx]
      exact markers_green _
    · rw [rendered_success_str ms x hsucc hx]
      exact markers_green _
  · intro txt htxt
    have hr : rendered (.obj ms) = (txt, green) := by
      rw [rendered_truthy (.obj ms) _ m hsu rfl hm, htxt]
    rw [hr]
    exact ⟨rfl, markers_green _⟩
  · intro htxt
    have hr : rendered (.obj ms) = (msgNetwork, red) := by
      rw [rendered_truthy (.obj ms) _ m hsu rfl hm, htxt]
    rw [hr]
    exact ⟨rfl, markers_red _⟩

theorem success_response_rendered_witness :
    (happyMembers.find "success" = some (.bool true)) ∧
    ∃ t m, (run examplePage [.submit, .fetchSettled examplePage.calls.length true,
        .jsonSettled examplePage.calls.length (some (.obj happyMembers))]).statusEl = some t ∧
      (Json.obj happyMembers).getProp "message" = some m ∧
      (∀ x, happyMembers.find "message" = some (.str x) → x ≠ "" → t.textContent = x) ∧
      (happyMembers.find "message" = none → t.textContent = msgSent) ∧
      ((happyMembers.find "message" = none ∨
          ∃ x, happyMembers.find "message" = some (.str x)) →
        green ∈ t.classList ∧ red ∉ t.classList ∧ hidden ∉ t.classList) ∧
      (∀ txt, (m.orElse msgSent).toDOMString = some txt →
        t.textContent = txt ∧ green ∈ t.classList ∧ red ∉ t.classList ∧
          hidden ∉ t.classList) ∧
      ((m.orElse msgSent).toDOMString = none →
        t.textContent = msgNetwork ∧ red ∈ t.classList ∧ green ∉ t.classList ∧
          hidden ∉ t.classList) :=
  ⟨rfl, success_response_rendered examplePage exampleForm exampleSink happyMembers
    rfl rfl rfl rfl⟩

/-- C1 fails as stated: the response `{"success": true, "message": {"toString": null}}`
is an object whose `success` is true, and the submission ends with
`text-red-600` present and `text-green-600` absent. -/
theorem success_true_without_green :
    stuckMembers.find "success" = some (.bool true) ∧
    ∃ t, (run examplePage [.submit, .fetchSettled examplePage.calls.length true,
        .jsonSettled examplePage.calls.length (some (.obj stuckMembers))]).statusEl = some t ∧
      green ∉ t.classList ∧ red ∈ t.classList :=
  ⟨rfl, _, rfl, by decide, by decide⟩

/-- C2: with the status element present and whatever its prior text and
classes, a submission whose response parses to an object with `success: false`
ends with the text equal to `error` when that is a non-empty string and to the
default "发送失败，请稍后再试" when `error` is absent, and in every case with
`text-red-600` present and `text-green-600` and `hidden` absent. -/
theorem failure_response_rendered (p : Page) (f : Form) (s : Sink) (ms : Members)
    (hf : p.form = some f) (hl : p.listening = true) (hs : p.statusEl = some s)
    (hsucc : ms.find "success" = some (.bool false)) :
    ∃ t, (run p [.submit, .fetchSettled p.calls.length true,
        .jsonSettled p.calls.length (some (.obj ms))]).statusEl = some t ∧
      (∀ m, ms.find "error" = some (.str m) → m ≠ "" → t.textContent = m) ∧
      (ms.find "error" = none → t.textContent = msgFailed) ∧
      red ∈ t.classList ∧ green ∉ t.classList ∧ hidden ∉ t.classList := by
  obtain ⟨form, sink, listening, calls, rejected, log⟩ := p
  simp only at hf hl hs
  subst hf hl hs
  rw [run_parsed]
  refine ⟨_, rfl, ?_, ?_, ?_⟩
  · intro m hm hne
    rw [rendered_failure_str ms m hsucc hm, if_neg hne]
  · intro hm
    rw [rendered_failure_absent ms hsucc hm]
  · rw [rendered_failure_marker ms hsucc]
    exact markers_red _

theorem failure_response_rendered_witness :
    (failureMembers.find "success" = some (.bool false)) ∧
    ∃ t, (run examplePage [.submit, .fetchSettled examplePage.calls.length true,
        .jsonSettled examplePage.calls.length (some (.obj failureMembers))]).statusEl = some t ∧
      (∀ m, failureMembers.find "error" = some (.str m) → m ≠ "" → t.textContent = m) ∧
      (failureMembers.find "error" = none → t.textContent = msgFailed) ∧
      red ∈ t.classList ∧ green ∉ t.classList ∧ hidden ∉ t.classList :=
  ⟨rfl, failure_response_rendered examplePage exampleForm exampleSink failureMembers
    rfl rfl rfl rfl⟩

/-- C3: with the status element present and whatever its prior state, when the
`fetch` rejects, and likewise when the body fails to parse as JSON, the handler
invocation finishes with no error escaping it (no promise is rejected), the
text is exactly "发送失败，请检查网络连接", `text-red-600` is present and
`text-green-600` is absent; both failures give the same text. -/
theorem transport_failure_rendered (p : Page) (f : Form) (s : Sink)
    (hf : p.form = some f) (hl : p.listening = true) (hs : p.statusEl = some s) :
    ∃ a b, (run p [.submit, .fetchSettled p.calls.length false]).statusEl = some a ∧
      (run p [.submit, .fetchSettled p.calls.length true,
        .jsonSettled p.calls.length none]).statusEl = some b ∧
      a.textContent = msgNetwork ∧ b.textContent = msgNetwork ∧
      red ∈ a.classList ∧ green ∉ a.classList ∧ red ∈ b.classList ∧ green ∉ b.classList ∧
      (run p [.submit, .fetchSettled p.calls.length false]).rejected = p.rejected ∧
      (run p [.submit, .fetchSettled p.calls.length true,
        .jsonSettled p.calls.length none]).rejected = p.rejected ∧
      (run p [.submit, .fetchSettled p.calls.length false]).calls = p.calls ++ [.done] ∧
      (run p [.submit, .fetchSettled p.calls.length true,
        .jsonSettled p.calls.length none]).calls = p.calls ++ [.done] := by
  obtain ⟨form, sink, listening, calls, rejected, log⟩ := p
  simp only at hf hl hs
  subst hf hl hs
  rw [run_fetchRejected, run_parseFailed]
  exact ⟨_, _, rfl, rfl, rfl, rfl, (markers_red _).1, (markers_red _).2.1, (markers_red _).1,
    (markers_red _).2.1, rfl, rfl, rfl, rfl⟩

theorem transport_failure_rendered_witness :
    ∃ a b, (run examplePage [.submit, .fetchSettled examplePage.calls.length false]).statusEl
        = some a ∧
      (run examplePage [.submit, .fetchSettled examplePage.calls.length true,
        .jsonSettled examplePage.calls.length none]).statusEl = some b ∧
      a.textContent = msgNetwork ∧ b.textContent = msgNetwork ∧
      red ∈ a.classList ∧ green ∉ a.classList ∧ red ∈ b.classList ∧ green ∉ b.classList ∧
      (run examplePage [.submit, .fetchSettled examplePage.calls.length false]).rejected
        = examplePage.rejected ∧
      (run examplePage [.submit, .fetchSettled examplePage.calls.length true,
        .jsonSettled examplePage.calls.length none]).rejected = examplePage.rejected ∧
      (run examplePage [.submit, .fetchSettled examplePage.calls.length false]).calls
        = examplePage.calls ++ [.done] ∧
      (run examplePage [.submit, .fetchSettled examplePage.calls.length true,
        .jsonSettled examplePage.calls.length none]).calls = examplePage.calls ++ [.done] :=
  transport_failure_rendered examplePage exampleForm exampleSink rfl rfl rfl

/-- C4: with the form present and the status element absent, a submit event
has `preventDefault` called on it and nothing else happens: no request is
issued and the page is otherwise unchanged. -/
theorem submit_without_sink (p : Page) (f : Form)
    (hf : p.form = some f) (hl : p.listening = true) (hs : p.statusEl = none) :
    step p .submit = { p with log := p.log ++ [.preventDefault] } := by
  obtain ⟨form, sink, listening, calls, rejected, log⟩ := p
  simp only at hf hl hs
  subst hf hl hs
  simp [step, handleSubmit]

theorem submit_without_sink_witness :
    step pageNoSink .submit = { pageNoSink with log := pageNoSink.log ++ [.preventDefault] } :=
  submit_without_sink pageNoSink exampleForm rfl rfl rfl

/-- Without a status element no event adds a request, and the element stays absent. -/
theorem step_without_sink (p : Page) (e : Event) (hs : p.statusEl = none) :
    (step p e).statusEl = none ∧ requests (step p e).log = requests p.log := by
  obtain ⟨form, sink, listening, calls, rejected, log⟩ := p
  simp only at hs
  subst hs
  cases e with
  | input fields => cases form <;> simp [step]
  | submit =>
    cases form with
    | none => simp [step]
    | some f =>
      cases listening <;> simp [step, handleSubmit, requests_append, requests]
  | fetchSettled call ok =>
    simp only [step]
    split
    · cases ok <;>
        simp [finish, tryCatch, catchBlock, setTextContent, Outcome.andThen, requests_append,
          requests]
    · simp
  | jsonSettled call r =>
    simp only [step]
    split
    · cases r with
      | none => simp [finish, tryCatch, catchBlock, setTextContent, Outcome.andThen]
      | some data =>
        have h : ∀ q : Page, q.statusEl = none → renderResponse data q = .thrown q := by
          intro q hq
          unfold renderResponse
          split
          · rfl
          · split <;> split <;> simp [setTextContent, hq, Outcome.andThen]
        simp [h, finish, tryCatch, catchBlock, setTextContent, Outcome.andThen]
    · simp

/-- C5, as the script behaves: with the form present and the status element
absent the script never performs a network call, whatever the sequence of
events; a submission has its default navigation suppressed and nothing more. -/
theorem no_request_without_sink (p : Page) (hs : p.statusEl = none) (es : List Event) :
    requests (run p es).log = requests p.log := by
  induction es generalizing p with
  | nil => rfl
  | cons e es ih =>
    have h := step_without_sink p e hs
    show requests (run (step p e) es).log = requests p.log
    rw [ih (step p e) h.1, h.2]

theorem no_request_without_sink_witness :
    requests (run pageNoSink [.submit, .submit]).log = requests pageNoSink.log :=
  no_request_without_sink pageNoSink rfl [.submit, .submit]

/-- C5 fails as stated: form present, status element absent, one submission,
and no request has been issued. -/
theorem submit_without_sink_sends_nothing :
    pageNoSink.form = some exampleForm ∧ pageNoSink.statusEl = none ∧
      requests (run pageNoSink [.submit]).log = [] := by
  decide

/-- The requests logged before a submission are kept, and its own request is
the only one added, however the submission ends. -/
theorem requests_submission (f : Form) (t : Sink) (calls : List Phase) (rejected : Nat)
    (log : List Effect) (r : Resolution) :
    requests (submission ⟨some f, some t, true, calls, rejected, log⟩ r).log =
      requests log ++ [⟨"POST", f.action, f.fields⟩] := by
  cases r with
  | fetchRejected =>
    simp only [submission, settle]
    rw [run_fetchRejected]
    simp [requests_append, requests]
  | parseFailed =>
    simp only [submission, settle]
    rw [run_parseFailed]
    simp [requests_append, requests]
  | parsed data =>
    simp only [submission, settle]
    rw [run_parsed]
    simp [requests_append, requests]

/-- C6: with the form and the status element present, a submission issues
exactly one request whatever its outcome: a POST to the form's action whose
body is the form's fields at the time of the submit event. The handler calls
`preventDefault`, removes `text-red-600` and `text-green-600`, sets the text
to "正在发送验证码...", removes `hidden`, and only then calls `fetch`. -/
theorem one_request_per_submission (p : Page) (f : Form) (s : Sink)
    (hf : p.form = some f) (hl : p.listening = true) (hs : p.statusEl = some s)
    (r : Resolution) :
    (step p .submit).log = p.log ++ [.preventDefault, .classRemove [red, green],
        .setText msgProgress, .classRemove [hidden], .fetch ⟨"POST", f.action, f.fields⟩] ∧
      (∃ t, (step p .submit).statusEl = some t ∧ t.textContent = msgProgress ∧
        red ∉ t.classList ∧ green ∉ t.classList ∧ hidden ∉ t.classList) ∧
      requests (submission p r).log = requests p.log ++ [⟨"POST", f.action, f.fields⟩] := by
  obtain ⟨form, sink, listening, calls, rejected, log⟩ := p
  simp only at hf hl hs
  subst hf hl hs
  rw [step_submit]
  refine ⟨rfl, ⟨_, rfl, rfl, ?_, ?_, ?_⟩, requests_submission _ _ _ _ _ _⟩
  · simp only [mem_tokensRemove]
    simp [red, green, hidden]
  · simp only [mem_tokensRemove]
    simp [red, green, hidden]
  · simp only [mem_tokensRemove]
    simp [red, green, hidden]

theorem one_request_per_submission_witness :
    (step examplePage .submit).log = examplePage.log ++ [.preventDefault,
        .classRemove [red, green], .setText msgProgress, .classRemove [hidden],
        .fetch ⟨"POST", exampleForm.action, exampleForm.fields⟩] ∧
      (∃ t, (step examplePage .submit).statusEl = some t ∧ t.textContent = msgProgress ∧
        red ∉ t.classList ∧ green ∉ t.classList ∧ hidden ∉ t.classList) ∧
      requests (submission examplePage (.parsed (.obj happyMembers))).log =
        requests examplePage.log ++ [⟨"POST", exampleForm.action, exampleForm.fields⟩] :=
  one_request_per_submission examplePage exampleForm exampleSink rfl rfl rfl
    (.parsed (.obj happyMembers))

/-- A page without the form ignores every event. -/
theorem step_without_form (st : Option Sink) (e : Event) :
    step ⟨none, st, false, [], 0, [.querySelector selector]⟩ e =
      ⟨none, st, false, [], 0, [.querySelector selector]⟩ := by
  cases e <;> simp [step]

/-- C8: when the document has no form matching the selector, loading the page
only runs the `querySelector`: no listener is attached, the status element is
neither looked up nor changed, nothing is requested and no error is raised,
and no later event changes any of this. -/
theorem no_form_no_action (d : Document) (hf : d.form = none) (es : List Event) :
    run (domContentLoaded d) es =
      { form := none, statusEl := d.status, listening := false, calls := [], rejected := 0,
        log := [.querySelector selector] } := by
  have h0 : domContentLoaded d =
      { form := none, statusEl := d.status, listening := false, calls := [], rejected := 0,
        log := [.querySelector selector] } := by
    simp [domContentLoaded, hf]
  rw [h0]
  induction es with
  | nil => rfl
  | cons e es ih =>
    show run (step _ e) es = _
    rw [step_without_form]
    exact ih

theorem no_form_no_action_witness :
    run (domContentLoaded { form := none, status := some exampleSink })
        [.submit, .fetchSettled 0 true] =
      { form := none, statusEl := some exampleSink, listening := false, calls := [],
        rejected := 0, log := [.querySelector selector] } :=
  no_form_no_action { form := none, status := some exampleSink } rfl
    [.submit, .fetchSettled 0 true]


theorem getElem?_at_length_succ (cs : List Phase) (x y : Phase) (l : List Phase) :
    (cs ++ x :: y :: l)[cs.length + 1]? = some y := by
  rw [List.getElem?_append_right (Nat.le_succ _)]
  simp

theorem set_at_length_succ (cs : List Phase) (x y z : Phase) (l : List Phase) :
    (cs ++ x :: y :: l).set (cs.length + 1) z = cs ++ x :: z :: l := by
  induction cs with
  | nil => rfl
  | cons c cs ih => simp [ih]

theorem step_fetchOk_at (form : Option Form) (sink : Option Sink) (listening : Bool)
    (calls : List Phase) (rejected : Nat) (log : List Effect) (c : Nat)
    (h : calls[c]? = some .awaitingFetch) :
    step ⟨form, sink, listening, calls, rejected, log⟩ (.fetchSettled c true) =
      ⟨form, sink, listening, calls.set c .awaitingJson, rejected, log ++ [.readJson c]⟩ := by
  simp only [step, h]
  simp

theorem step_fetchFail_at (form : Option Form) (t : Sink) (listening : Bool)
    (calls : List Phase) (rejected : Nat) (log : List Effect) (c : Nat)
    (h : calls[c]? = some .awaitingFetch) :
    step ⟨form, some t, listening, calls, rejected, log⟩ (.fetchSettled c false) =
      ⟨form, some ⟨msgNetwork, tokensAdd red t.classList⟩, listening, calls.set c .done, rejected,
        log ++ [.setText msgNetwork, .classAdd red]⟩ := by
  simp only [step, h]
  simp [finish_catch]

theorem step_jsonFail_at (form : Option Form) (t : Sink) (listening : Bool)
    (calls : List Phase) (rejected : Nat) (log : List Effect) (c : Nat)
    (h : calls[c]? = some .awaitingJson) :
    step ⟨form, some t, listening, calls, rejected, log⟩ (.jsonSettled c none) =
      ⟨form, some ⟨msgNetwork, tokensAdd red t.classList⟩, listening, calls.set c .done, rejected,
        log ++ [.setText msgNetwork, .classAdd red]⟩ := by
  simp only [step, h]
  simp [finish_catch]

theorem step_jsonOk_at (data : Json) (form : Option Form) (t : Sink) (listening : Bool)
    (calls : List Phase) (rejected : Nat) (log : List Effect) (c : Nat)
    (h : calls[c]? = some .awaitingJson) :
    step ⟨form, some t, listening, calls, rejected, log⟩ (.jsonSettled c (some data)) =
      ⟨form, some ⟨(rendered data).1, tokensAdd (rendered data).2 t.classList⟩, listening,
        calls.set c .done, rejected,
        log ++ [.setText (rendered data).1, .classAdd (rendered data).2]⟩ := by
  simp only [step, h]
  simp [finish_render]

theorem step_fetchOk_succ (form : Option Form) (sink : Option Sink) (listening : Bool)
    (cs l : List Phase) (x : Phase) (rejected : Nat) (log : List Effect) :
    step ⟨form, sink, listening, cs ++ x :: .awaitingFetch :: l, rejected, log⟩
        (.fetchSettled (cs.length + 1) true) =
      ⟨form, sink, listening, cs ++ x :: .awaitingJson :: l, rejected,
        log ++ [.readJson (cs.length + 1)]⟩ := by
  rw [step_fetchOk_at _ _ _ _ _ _ _ (getElem?_at_length_succ _ _ _ _), set_at_length_succ]

theorem step_fetchFail_succ (form : Option Form) (t : Sink) (listening : Bool)
    (cs l : List Phase) (x : Phase) (rejected : Nat) (log : List Effect) :
    step ⟨form, some t, listening, cs ++ x :: .awaitingFetch :: l, rejected, log⟩
        (.fetchSettled (cs.length + 1) false) =
      ⟨form, some ⟨msgNetwork, tokensAdd red t.classList⟩, listening, cs ++ x :: .done :: l,
        rejected, log ++ [.setText msgNetwork, .classAdd red]⟩ := by
  rw [step_fetchFail_at _ _ _ _ _ _ _ (getElem?_at_length_succ _ _ _ _), set_at_length_succ]

theorem step_jsonFail_succ (form : Option Form) (t : Sink) (listening : Bool)
    (cs l : List Phase) (x : Phase) (rejected : Nat) (log : List Effect) :
    step ⟨form, some t, listening, cs ++ x :: .awaitingJson :: l, rejected, log⟩
        (.jsonSettled (cs.length + 1) none) =
      ⟨form, some ⟨msgNetwork, tokensAdd red t.classList⟩, listening, cs ++ x :: .done :: l,
        rejected, log ++ [.setText msgNetwork, .classAdd red]⟩ := by
  rw [step_jsonFail_at _ _ _ _ _ _ _ (getElem?_at_length_succ _ _ _ _), set_at_length_succ]

theorem step_jsonOk_succ (data : Json) (form : Option Form) (t : Sink) (listening : Bool)
    (cs l : List Phase) (x : Phase) (rejected : Nat) (log : List Effect) :
    step ⟨form, some t, listening, cs ++ x :: .awaitingJson :: l, rejected, log⟩
        (.jsonSettled (cs.length + 1) (some data)) =
      ⟨form, some ⟨(rendered data).1, tokensAdd (rendered data).2 t.classList⟩, listening,
        cs ++ x :: .done :: l, rejected,
        log ++ [.setText (rendered data).1, .classAdd (rendered data).2]⟩ := by
  rw [step_jsonOk_at _ _ _ _ _ _ _ _ (getElem?_at_length_succ _ _ _ _), set_at_length_succ]

theorem submission_sink (f : Form) (t : Sink) (calls : List Phase) (rejected : Nat)
    (log : List Effect) (r : Resolution) :
    (submission ⟨some f, some t, true, calls, rejected, log⟩ r).statusEl =
      some ⟨r.shown.1, tokensAdd r.shown.2
        (tokensRemove [hidden] (tokensRemove [red, green] t.classList))⟩ := by
  cases r with
  | fetchRejected =>
    simp only [submission, settle]
    rw [run_fetchRejected]
    rfl
  | parseFailed =>
    simp only [submission, settle]
    rw [run_parseFailed]
    rfl
  | parsed data =>
    simp only [submission, settle]
    rw [run_parsed]
    rfl

/-- Settling the two invocations that two submit events started, one after the other. -/
theorem overlap_sink (f : Form) (t : Sink) (calls : List Phase) (rejected : Nat)
    (log : List Effect) (first last : Resolution) (swap : Bool) :
    (run ⟨some f, some t, true, calls, rejected, log⟩
      ([.submit, .submit] ++ settle (if swap then calls.length + 1 else calls.length) first
        ++ settle (if swap then calls.length else calls.length + 1) last)).statusEl =
      some ⟨last.shown.1, tokensAdd last.shown.2 (tokensAdd first.shown.2
        (tokensRemove [hidden] (tokensRemove [red, green] (tokensRemove [hidden] (tokensRemove [red, green] t.classList)))))⟩ := by
  cases swap <;> cases first <;> cases last <;>
    simp [run, settle, step_submit, step_fetchOk, step_fetchFail, step_jsonFail, step_jsonOk,
      step_fetchOk_succ, step_fetchFail_succ, step_jsonFail_succ, step_jsonOk_succ,
      Resolution.shown]


theorem pendingCount_append_fetch (l : List Phase) :
    pendingCount (l ++ [.awaitingFetch]) = pendingCount l + 1 := by
  induction l with
  | nil => rfl
  | cons a l ih => cases a <;> simp [pendingCount, ih]

theorem pendingCount_set_done (l : List Phase) (i : Nat) (a : Phase)
    (h : l[i]? = some a) (ha : a ≠ .done) :
    pendingCount (l.set i .done) + 1 = pendingCount l := by
  induction l generalizing i with
  | nil => simp at h
  | cons x l ih =>
    cases i with
    | zero =>
      simp at h
      subst h
      cases x <;> simp_all [pendingCount]
    | succ i =>
      simp at h
      have := ih i h
      cases x <;> simp [pendingCount] <;> omega

theorem pendingCount_set_json (l : List Phase) (i : Nat)
    (h : l[i]? = some .awaitingFetch) :
    pendingCount (l.set i .awaitingJson) = pendingCount l := by
  induction l generalizing i with
  | nil => simp at h
  | cons x l ih =>
    cases i with
    | zero =>
      simp at h
      subst h
      simp [pendingCount]
    | succ i =>
      simp at h
      have := ih i h
      cases x <;> simp [pendingCount] <;> omega

theorem rendered_marker (data : Json) : (rendered data).2 = red ∨ (rendered data).2 = green := by
  unfold rendered
  split
  · exact Or.inl rfl
  · split
    · split
      · exact Or.inl rfl
      · split
        · exact Or.inl rfl
        · exact Or.inr rfl
    · split
      · exact Or.inl rfl
      · split
        · exact Or.inl rfl
        · exact Or.inl rfl

theorem step_fetch_ignored (p : Page) (c : Nat) (ok : Bool)
    (h : p.calls[c]? ≠ some .awaitingFetch) : step p (.fetchSettled c ok) = p := by
  simp only [step]

theorem step_json_ignored (p : Page) (c : Nat) (r : Option Json)
    (h : p.calls[c]? ≠ some .awaitingJson) : step p (.jsonSettled c r) = p := by
  simp only [step]

theorem red_ne_green : red ≠ green := by decide

/-- Adding one marker to a class list that has neither leaves at most one. -/
theorem exclusive_after_add (mk : String) (l : List String) (hmk : mk = red ∨ mk = green)
    (hr : red ∉ l) (hg : green ∉ l) :
    ¬(red ∈ tokensAdd mk l ∧ green ∈ tokensAdd mk l) := by
  simp only [mem_tokensAdd]
  rcases hmk with h | h <;> subst h
  · rintro ⟨_, h2⟩
    rcases h2 with h2 | h2
    · exact red_ne_green h2.symm
    · exact hg h2
  · rintro ⟨h1, _⟩
    rcases h1 with h1 | h1
    · exact red_ne_green h1
    · exact hr h1

theorem exclusive_step (p : Page) (e : Event) (h : Exclusive p)
    (hsub : (∃ f, p.form = some f ∧ p.listening = true) → e = .submit → pendingCount p.calls = 0) :
    Exclusive (step p e) := by
  obtain ⟨form, sink, listening, calls, rejected, log⟩ := p
  obtain ⟨hle, t, ht, hex, hp⟩ := h
  simp only at ht hle hp hsub
  subst ht
  cases e with
  | input fields =>
    cases form <;> exact ⟨hle, t, rfl, hex, hp⟩
  | submit =>
    cases form with
    | none => exact ⟨hle, t, rfl, hex, hp⟩
    | some f =>
      cases listening with
      | false => exact ⟨hle, t, rfl, hex, hp⟩
      | true =>
        have h0 : pendingCount calls = 0 := hsub ⟨f, rfl, rfl⟩ rfl
        rw [step_submit]
        refine ⟨?_, _, rfl, ?_, ?_⟩
        · simp [pendingCount_append_fetch, h0]
        · simp only [mem_tokensRemove]
          simp [red, green, hidden]
        · intro _
          simp only [mem_tokensRemove]
          simp [red, green, hidden]
  | fetchSettled c ok =>
    by_cases hc : calls[c]? = some .awaitingFetch
    · cases ok with
      | true =>
        rw [step_fetchOk_at _ _ _ _ _ _ _ hc]
        have hcount := pendingCount_set_json calls c hc
        refine ⟨?_, t, rfl, hex, ?_⟩
        · simpa [hcount] using hle
        · simpa [hcount] using hp
      | false =>
        rw [step_fetchFail_at _ _ _ _ _ _ _ hc]
        have hcount := pendingCount_set_done calls c _ hc (by decide)
        have h1 : pendingCount calls = 1 := by omega
        have hnone := hp h1
        refine ⟨?_, _, rfl, exclusive_after_add red _ (Or.inl rfl) hnone.1 hnone.2, ?_⟩
        · show pendingCount (calls.set c .done) ≤ 1
          omega
        · intro h2
          have h3 : pendingCount (calls.set c .done) = 1 := h2
          omega
    · rw [step_fetch_ignored _ _ _ hc]
      exact ⟨hle, t, rfl, hex, hp⟩
  | jsonSettled c r =>
    by_cases hc : calls[c]? = some .awaitingJson
    · have hcount := pendingCount_set_done calls c _ hc (by decide)
      have h1 : pendingCount calls = 1 := by omega
      have hnone := hp h1
      cases r with
      | none =>
        rw [step_jsonFail_at _ _ _ _ _ _ _ hc]
        refine ⟨?_, _, rfl, exclusive_after_add red _ (Or.inl rfl) hnone.1 hnone.2, ?_⟩
        · show pendingCount (calls.set c .done) ≤ 1
          omega
        · intro h2
          have h3 : pendingCount (calls.set c .done) = 1 := h2
          omega
      | some data =>
        rw [step_jsonOk_at _ _ _ _ _ _ _ _ hc]
        refine ⟨?_, _, rfl, exclusive_after_add _ _ (rendered_marker data) hnone.1 hnone.2, ?_⟩
        · show pendingCount (calls.set c .done) ≤ 1
          omega
        · intro h2
          have h3 : pendingCount (calls.set c .done) = 1 := h2
          omega
    · rw [step_json_ignored _ _ _ hc]
      exact ⟨hle, t, rfl, hex, hp⟩

theorem exclusive_run (p : Page) (es : List Event) (h : Exclusive p)
    (hser : serialised p es = true) : Exclusive (run p es) := by
  induction es generalizing p with
  | nil => exact h
  | cons e es ih =>
    show Exclusive (run (step p e) es)
    cases e with
    | submit =>
      simp only [serialised, Bool.and_eq_true, beq_iff_eq] at hser
      exact ih _ (exclusive_step p _ h (fun _ _ => hser.1)) hser.2
    | input fields =>
      simp only [serialised] at hser
      exact ih _ (exclusive_step p _ h (fun _ hh => by cases hh)) hser
    | fetchSettled c ok =>
      simp only [serialised] at hser
      exact ih _ (exclusive_step p _ h (fun _ hh => by cases hh)) hser
    | jsonSettled c r =>
      simp only [serialised] at hser
      exact ih _ (exclusive_step p _ h (fun _ hh => by cases hh)) hser

theorem exclusive_init (d : Document) (s : Sink) (hs : d.status = some s)
    (hr : red ∉ s.classList) (hg : green ∉ s.classList) : Exclusive (domContentLoaded d) := by
  obtain ⟨form, status⟩ := d
  simp only at hs
  subst hs
  cases form with
  | none => exact ⟨Nat.zero_le _, s, rfl, fun h => hr h.1, fun _ => ⟨hr, hg⟩⟩
  | some f => exact ⟨Nat.zero_le _, s, rfl, fun h => hr h.1, fun _ => ⟨hr, hg⟩⟩

/-- C7, as the script behaves: starting from a status element with neither
marker, in every state reached by a sequence of events in which the form is
submitted only while no earlier submission is pending, the element carries at
most one of `text-red-600` and `text-green-600`; so after an error render
followed by a successful render of a later submission the error marker is
absent. -/
theorem markers_exclusive_serialised (d : Document) (s : Sink) (hs : d.status = some s)
    (hr : red ∉ s.classList) (hg : green ∉ s.classList) (es : List Event)
    (hser : serialised (domContentLoaded d) es = true) :
    ∃ t, (run (domContentLoaded d) es).statusEl = some t ∧
      ¬(red ∈ t.classList ∧ green ∈ t.classList) := by
  obtain ⟨_, t, ht, hex, _⟩ := exclusive_run _ es (exclusive_init d s hs hr hg) hser
  exact ⟨t, ht, hex⟩

theorem markers_exclusive_serialised_witness :
    (red ∉ exampleSink.classList ∧ green ∉ exampleSink.classList) ∧
    serialised (domContentLoaded { form := some exampleForm, status := some exampleSink })
      [.submit, .fetchSettled 0 false, .submit, .fetchSettled 1 true,
        .jsonSettled 1 (some (.obj happyMembers))] = true ∧
    ∃ t, (run (domContentLoaded { form := some exampleForm, status := some exampleSink })
      [.submit, .fetchSettled 0 false, .submit, .fetchSettled 1 true,
        .jsonSettled 1 (some (.obj happyMembers))]).statusEl = some t ∧
      ¬(red ∈ t.classList ∧ green ∈ t.classList) :=
  ⟨⟨by decide, by decide⟩, rfl,
    markers_exclusive_serialised { form := some exampleForm, status := some exampleSink }
      exampleSink rfl (by decide) (by decide) _ rfl⟩

/-- C7 fails as stated: the status element starts with neither marker; two
submissions overlap, the first ends in an error render and the second in a
successful render, and the element carries both markers. -/
theorem overlapping_submissions_both_markers :
    red ∉ exampleSink.classList ∧ green ∉ exampleSink.classList ∧
    ∃ t, (run examplePage [.submit, .submit, .fetchSettled 0 false, .fetchSettled 1 true,
        .jsonSettled 1 (some (.obj happyMembers))]).statusEl = some t ∧
      red ∈ t.classList ∧ green ∈ t.classList :=
  ⟨by decide, by decide, _, rfl, by decide, by decide⟩

/-- The status element, once present, stays present. -/
theorem sink_present_step (p : Page) (e : Event) (h : ∃ t, p.statusEl = some t) :
    ∃ t, (step p e).statusEl = some t := by
  obtain ⟨form, sink, listening, calls, rejected, log⟩ := p
  obtain ⟨t, ht⟩ := h
  simp only at ht
  subst ht
  cases e with
  | input fields => cases form <;> exact ⟨t, rfl⟩
  | submit =>
    cases form with
    | none => exact ⟨t, rfl⟩
    | some f =>
      cases listening with
      | false => exact ⟨t, rfl⟩
      | true =>
        rw [step_submit]
        exact ⟨_, rfl⟩
  | fetchSettled c ok =>
    by_cases hc : calls[c]? = some .awaitingFetch
    · cases ok with
      | true =>
        rw [step_fetchOk_at _ _ _ _ _ _ _ hc]
        exact ⟨t, rfl⟩
      | false =>
        rw [step_fetchFail_at _ _ _ _ _ _ _ hc]
        exact ⟨_, rfl⟩
    · rw [step_fetch_ignored _ _ _ hc]
      exact ⟨t, rfl⟩
  | jsonSettled c r =>
    by_cases hc : calls[c]? = some .awaitingJson
    · cases r with
      | none =>
        rw [step_jsonFail_at _ _ _ _ _ _ _ hc]
        exact ⟨_, rfl⟩
      | some data =>
        rw [step_jsonOk_at _ _ _ _ _ _ _ _ hc]
        exact ⟨_, rfl⟩
    · rw [step_json_ignored _ _ _ hc]
      exact ⟨t, rfl⟩

theorem sink_present_run (p : Page) (es : List Event) (h : ∃ t, p.statusEl = some t) :
    ∃ t, (run p es).statusEl = some t := by
  induction es generalizing p with
  | nil => exact h
  | cons e es ih => exact ih (step p e) (sink_present_step p e h)

theorem shown_marker (r : Resolution) : r.shown.2 = red ∨ r.shown.2 = green := by
  cases r with
  | fetchRejected => exact Or.inl rfl
  | parseFailed => exact Or.inl rfl
  | parsed data => exact rendered_marker data

/-- The settlement that ends an invocation sets the text and adds the marker
of its ending to the classes present. -/
theorem completion_sink (q : Page) (t : Sink) (c : Nat) (r : Resolution)
    (ht : q.statusEl = some t) (hc : q.calls[c]? = some r.awaits) :
    (step q (r.completion c)).statusEl =
      some ⟨r.shown.1, tokensAdd r.shown.2 t.classList⟩ := by
  obtain ⟨form, sink, listening, calls, rejected, log⟩ := q
  simp only at ht hc
  subst ht
  cases r with
  | fetchRejected =>
    show (step _ (.fetchSettled c false)).statusEl = _
    rw [step_fetchFail_at _ _ _ _ _ _ _ hc]
    rfl
  | parseFailed =>
    show (step _ (.jsonSettled c none)).statusEl = _
    rw [step_jsonFail_at _ _ _ _ _ _ _ hc]
    rfl
  | parsed data =>
    show (step _ (.jsonSettled c (some data))).statusEl = _
    rw [step_jsonOk_at _ _ _ _ _ _ _ _ hc]
    rfl

/-- C9, as the script behaves: outcomes are applied in completion order, and a
completion sets the text and adds its marker without removing the other one.
First, two submissions are started one after the other and then settle in
either order: once both have resolved, the text is the text the
last-to-resolve response renders on its own, and the class list holds what
either response renders on its own. Second, after any sequence of events, the
settlement that ends a pending invocation leaves the text that its response
renders on its own and adds that response's marker to the classes present. -/
theorem overlapping_last_text_wins (p : Page) (f : Form) (s : Sink)
    (hf : p.form = some f) (hl : p.listening = true) (hs : p.statusEl = some s)
    (first last : Resolution) (swap : Bool) :
    (∃ t a b,
      (run p ([.submit, .submit]
        ++ settle (if swap then p.calls.length + 1 else p.calls.length) first
        ++ settle (if swap then p.calls.length else p.calls.length + 1) last)).statusEl = some t ∧
      (submission p last).statusEl = some a ∧
      (submission p first).statusEl = some b ∧
      t.textContent = a.textContent ∧
      ∀ c, c ∈ t.classList ↔ (c ∈ a.classList ∨ c ∈ b.classList)) ∧
    (∀ (es : List Event) (call : Nat), (run p es).calls[call]? = some last.awaits →
      ∃ t u a mk,
        (run p es).statusEl = some t ∧
        (step (run p es) (last.completion call)).statusEl = some u ∧
        (submission p last).statusEl = some a ∧
        u.textContent = a.textContent ∧
        (mk = red ∨ mk = green) ∧ mk ∈ a.classList ∧
        ∀ c, c ∈ u.classList ↔ (c = mk ∨ c ∈ t.classList)) := by
  constructor
  · obtain ⟨form, sink, listening, calls, rejected, log⟩ := p
    simp only at hf hl hs
    subst hf hl hs
    refine ⟨_, _, _, overlap_sink f s calls rejected log first last swap,
      submission_sink f s calls rejected log last, submission_sink f s calls rejected log first,
      rfl, ?_⟩
    intro c
    simp only [mem_tokensAdd, mem_tokensRemove]
    tauto
  · intro es call hcall
    obtain ⟨t, ht⟩ := sink_present_run p es ⟨s, hs⟩
    have hu := completion_sink (run p es) t call last ht hcall
    obtain ⟨form, sink, listening, calls, rejected, log⟩ := p
    simp only at hf hl hs
    subst hf hl hs
    refine ⟨t, _, _, last.shown.2, ht, hu, submission_sink f s calls rejected log last, rfl,
      shown_marker last, ?_, ?_⟩
    · exact (mem_tokensAdd _ _ _).2 (Or.inl rfl)
    · intro c
      exact mem_tokensAdd _ _ _

theorem overlapping_last_text_wins_witness :
    (∃ t a b,
      (run examplePage ([.submit, .submit]
        ++ settle (if true then examplePage.calls.length + 1 else examplePage.calls.length)
          (.parsed (.obj happyMembers))
        ++ settle (if true then examplePage.calls.length else examplePage.calls.length + 1)
          (.parsed (.obj failureMembers)))).statusEl = some t ∧
      (submission examplePage (.parsed (.obj failureMembers))).statusEl = some a ∧
      (submission examplePage (.parsed (.obj happyMembers))).statusEl = some b ∧
      t.textContent = a.textContent ∧
      ∀ c, c ∈ t.classList ↔ (c ∈ a.classList ∨ c ∈ b.classList)) ∧
    (∀ (es : List Event) (call : Nat),
      (run examplePage es).calls[call]? = some (Resolution.parsed (.obj failureMembers)).awaits →
      ∃ t u a mk,
        (run examplePage es).statusEl = some t ∧
        (step (run examplePage es)
          ((Resolution.parsed (.obj failureMembers)).completion call)).statusEl = some u ∧
        (submission examplePage (.parsed (.obj failureMembers))).statusEl = some a ∧
        u.textContent = a.textContent ∧
        (mk = red ∨ mk = green) ∧ mk ∈ a.classList ∧
        ∀ c, c ∈ u.classList ↔ (c = mk ∨ c ∈ t.classList)) :=
  overlapping_last_text_wins examplePage exampleForm exampleSink rfl rfl rfl
    (.parsed (.obj happyMembers)) (.parsed (.obj failureMembers)) true

/-- C9 fails as stated: two overlapping submissions, the first resolves with
`success: true`, the last with `success: false`; the final class list has
`text-green-600`, which the last response rendered on its own does not leave. -/
theorem last_response_keeps_earlier_marker :
    ∃ t a,
      (run examplePage [.submit, .submit, .fetchSettled 0 true,
        .jsonSettled 0 (some (.obj happyMembers)), .fetchSettled 1 true,
        .jsonSettled 1 (some (.obj failureMembers))]).statusEl = some t ∧
      (submission examplePage (.parsed (.obj failureMembers))).statusEl = some a ∧
      green ∈ t.classList ∧ green ∉ a.classList :=
  ⟨_, _, rfl, rfl, by decide, by decide⟩

/-- C10, as the script behaves: with the status element present, the `catch`
block runs, leaving the fixed text "发送失败，请检查网络连接" with
`text-red-600` and without `text-green-600`, when the `fetch` rejects, when the
body is not JSON, when the body parses to `null`, and also when the chosen
`message` or `error` value cannot be converted to a string. For every parsed
value other than `null` the branch is chosen by the truthiness of `success`:
the text is the string conversion of `message || "验证码已发送"` with the green
marker, or of `error || "发送失败，请稍后再试"` with the red marker; a value
that is not an object renders the default failure text. Conversely the fixed
text is final only in the four cases above or when the server's own `message`
or `error` is that text. -/
theorem catch_block_cases (p : Page) (f : Form) (s : Sink)
    (hf : p.form = some f) (hl : p.listening = true) (hs : p.statusEl = some s)
    (r : Resolution) :
    ∃ t, (submission p r).statusEl = some t ∧
      ((r = .fetchRejected ∨ r = .parseFailed ∨ r = .parsed .null) →
        t.textContent = msgNetwork ∧ red ∈ t.classList ∧ green ∉ t.classList) ∧
      (∀ data, r = .parsed data → data ≠ .null →
        ∃ succ, data.getProp "success" = some succ ∧
          (succ.truthy = true → ∃ m, data.getProp "message" = some m ∧
            (∀ txt, (m.orElse msgSent).toDOMString = some txt →
              t.textContent = txt ∧ green ∈ t.classList ∧ red ∉ t.classList) ∧
            ((m.orElse msgSent).toDOMString = none →
              t.textContent = msgNetwork ∧ red ∈ t.classList ∧ green ∉ t.classList)) ∧
          (succ.truthy = false → ∃ e, data.getProp "error" = some e ∧
            (∀ txt, (e.orElse msgFailed).toDOMString = some txt →
              t.textContent = txt ∧ red ∈ t.classList ∧ green ∉ t.classList) ∧
            ((e.orElse msgFailed).toDOMString = none →
              t.textContent = msgNetwork ∧ red ∈ t.classList ∧ green ∉ t.classList))) ∧
      (∀ data, r = .parsed data → data ≠ .null → (∀ ms, data ≠ .obj ms) →
        t.textContent = msgFailed ∧ red ∈ t.classList ∧ green ∉ t.classList) ∧
      (t.textContent = msgNetwork →
        r = .fetchRejected ∨ r = .parseFailed ∨ r = .parsed .null ∨
        ∃ data succ v, r = .parsed data ∧ data.getProp "success" = some succ ∧
          ((succ.truthy = true ∧ data.getProp "message" = some v ∧
              ((v.orElse msgSent).toDOMString = none ∨
                (v.orElse msgSent).toDOMString = some msgNetwork)) ∨
            (succ.truthy = false ∧ data.getProp "error" = some v ∧
              ((v.orElse msgFailed).toDOMString = none ∨
                (v.orElse msgFailed).toDOMString = some msgNetwork)))) := by
  obtain ⟨form, sink, listening, calls, rejected, log⟩ := p
  simp only at hf hl hs
  subst hf hl hs
  rw [submission_sink]
  refine ⟨_, rfl, ?_, ?_, ?_, ?_⟩
  · rintro (h | h | h) <;> subst h <;>
      exact ⟨rfl, (markers_red _).1, (markers_red _).2.1⟩
  · intro data hr hnn
    subst hr
    obtain ⟨succ, hsucc⟩ := getProp_of_ne_null data "success" hnn
    refine ⟨succ, hsucc, ?_, ?_⟩
    · intro htr
      obtain ⟨m, hm⟩ := getProp_of_ne_null data "message" hnn
      refine ⟨m, hm, ?_, ?_⟩
      · intro txt htxt
        have hr : (Resolution.parsed data).shown = (txt, green) := by
          show rendered data = _
          rw [rendered_truthy data succ m hsucc htr hm, htxt]
        rw [hr]
        exact ⟨rfl, (markers_green _).1, (markers_green _).2.1⟩
      · intro htxt
        have hr : (Resolution.parsed data).shown = (msgNetwork, red) := by
          show rendered data = _
          rw [rendered_truthy data succ m hsucc htr hm, htxt]
        rw [hr]
        exact ⟨rfl, (markers_red _).1, (markers_red _).2.1⟩
    · intro hfa
      obtain ⟨e, he⟩ := getProp_of_ne_null data "error" hnn
      refine ⟨e, he, ?_, ?_⟩
      · intro txt htxt
        have hr : (Resolution.parsed data).shown = (txt, red) := by
          show rendered data = _
          rw [rendered_falsy data succ e hsucc hfa he, htxt]
        rw [hr]
        exact ⟨rfl, (markers_red _).1, (markers_red _).2.1⟩
      · intro htxt
        have hr : (Resolution.parsed data).shown = (msgNetwork, red) := by
          show rendered data = _
          rw [rendered_falsy data succ e hsucc hfa he, htxt]
        rw [hr]
        exact ⟨rfl, (markers_red _).1, (markers_red _).2.1⟩
  · intro data hr hnn hno
    subst hr
    cases data with
    | null => exact absurd rfl hnn
    | obj ms => exact absurd rfl (hno ms)
    | bool b => exact ⟨rfl, (markers_red _).1, (markers_red _).2.1⟩
    | num n => exact ⟨rfl, (markers_red _).1, (markers_red _).2.1⟩
    | str x => exact ⟨rfl, (markers_red _).1, (markers_red _).2.1⟩
    | arr xs => exact ⟨rfl, (markers_red _).1, (markers_red _).2.1⟩
  · intro htext
    cases r with
    | fetchRejected => exact Or.inl rfl
    | parseFailed => exact Or.inr (Or.inl rfl)
    | parsed data =>
      by_cases hnn : data = .null
      · subst hnn
        exact Or.inr (Or.inr (Or.inl rfl))
      · refine Or.inr (Or.inr (Or.inr ?_))
        obtain ⟨succ, hsucc⟩ := getProp_of_ne_null data "success" hnn
        cases htr : succ.truthy with
        | true =>
          obtain ⟨m, hm⟩ := getProp_of_ne_null data "message" hnn
          refine ⟨data, succ, m, rfl, hsucc, Or.inl ⟨htr, hm, ?_⟩⟩
          cases htxt : (m.orElse msgSent).toDOMString with
          | none => exact Or.inl rfl
          | some txt =>
            have hr : (Resolution.parsed data).shown = (txt, green) := by
              show rendered data = _
              rw [rendered_truthy data succ m hsucc htr hm, htxt]
            rw [hr] at htext
            exact Or.inr (congrArg some htext)
        | false =>
          obtain ⟨e, he⟩ := getProp_of_ne_null data "error" hnn
          refine ⟨data, succ, e, rfl, hsucc, Or.inr ⟨htr, he, ?_⟩⟩
          cases htxt : (e.orElse msgFailed).toDOMString with
          | none => exact Or.inl rfl
          | some txt =>
            have hr : (Resolution.parsed data).shown = (txt, red) := by
              show rendered data = _
              rw [rendered_falsy data succ e hsucc htr he, htxt]
            rw [hr] at htext
            exact Or.inr (congrArg some htext)

theorem catch_block_cases_witness :
    ∃ t, (submission examplePage stuckResponse).statusEl = some t ∧
      ((stuckResponse = .fetchRejected ∨ stuckResponse = .parseFailed ∨
          stuckResponse = .parsed .null) →
        t.textContent = msgNetwork ∧ red ∈ t.classList ∧ green ∉ t.classList) ∧
      (∀ data, stuckResponse = .parsed data → data ≠ .null →
        ∃ succ, data.getProp "success" = some succ ∧
          (succ.truthy = true → ∃ m, data.getProp "message" = some m ∧
            (∀ txt, (m.orElse msgSent).toDOMString = some txt →
              t.textContent = txt ∧ green ∈ t.classList ∧ red ∉ t.classList) ∧
            ((m.orElse msgSent).toDOMString = none →
              t.textContent = msgNetwork ∧ red ∈ t.classList ∧ green ∉ t.classList)) ∧
          (succ.truthy = false → ∃ e, data.getProp "error" = some e ∧
            (∀ txt, (e.orElse msgFailed).toDOMString = some txt →
              t.textContent = txt ∧ red ∈ t.classList ∧ green ∉ t.classList) ∧
            ((e.orElse msgFailed).toDOMString = none →
              t.textContent = msgNetwork ∧ red ∈ t.classList ∧ green ∉ t.classList))) ∧
      (∀ data, stuckResponse = .parsed data → data ≠ .null →
        (∀ ms, data ≠ .obj ms) →
        t.textContent = msgFailed ∧ red ∈ t.classList ∧ green ∉ t.classList) ∧
      (t.textContent = msgNetwork →
        stuckResponse = .fetchRejected ∨ stuckResponse = .parseFailed ∨
        stuckResponse = .parsed .null ∨
        ∃ data succ v, stuckResponse = .parsed data ∧ data.getProp "success" = some succ ∧
          ((succ.truthy = true ∧ data.getProp "message" = some v ∧
              ((v.orElse msgSent).toDOMString = none ∨
                (v.orElse msgSent).toDOMString = some msgNetwork)) ∨
            (succ.truthy = false ∧ data.getProp "error" = some v ∧
              ((v.orElse msgFailed).toDOMString = none ∨
                (v.orElse msgFailed).toDOMString = some msgNetwork)))) :=
  catch_block_cases examplePage exampleForm exampleSink rfl rfl rfl
    stuckResponse

/-- C10 fails as stated: the response `{"success": false, "error": "发送失败，请检查网络连接"}`
is fetched and parsed, it is not `null`, and the final text is the fixed message. -/
theorem fixed_text_from_server_error :
    (∃ t, (submission examplePage (.parsed (.obj echoMembers))).statusEl = some t ∧
      t.textContent = msgNetwork) ∧
    Resolution.parsed (.obj echoMembers) ≠ .fetchRejected ∧
    Resolution.parsed (.obj echoMembers) ≠ .parseFailed ∧
    Resolution.parsed (.obj echoMembers) ≠ .parsed .null := by
  refine ⟨⟨_, rfl, rfl⟩, ?_, ?_, ?_⟩ <;> intro h <;> cases h

/-- A `message` that cannot be converted to a string: the assignment to
`textContent` throws inside the `try` block and the `catch` block renders. -/
theorem unconvertible_message_caught :
    (submission examplePage stuckResponse).statusEl =
      some { textContent := msgNetwork, classList := ["text-sm", "text-red-600"] } := by
  rfl

end OtpApp
